import Mathlib

/-!
Shallow embedding of the plasma object-store core declared in
`cpp/src/plasma/plasma.h`, together with the object-directory lifecycle
operations.  The header declares the data model exhaustively
(`ObjectTableEntry`, `PlasmaStoreInfo`, `PlasmaObject`, `ObjectState`,
`ObjectStatus`, `kBlockSize`, the `HANDLE_SIGPIPE` macro and the
`GetObjectTableEntry` lookup); the lifecycle logic (create, seal, get,
release, abort, delete, disconnect cleanup) is not part of the sources and
is modelled from the specification, as marked on each definition.
-/

namespace Plasma

/-- POSIX errno value for a broken pipe, as checked by `HANDLE_SIGPIPE`. -/
def EPIPE : Int := 32

/-- POSIX errno value for a bad file descriptor, as checked by `HANDLE_SIGPIPE`. -/
def EBADF : Int := 9

/-- POSIX errno value for a reset connection, as checked by `HANDLE_SIGPIPE`. -/
def ECONNRESET : Int := 104

/-- Model of `arrow::Status` as used by the header: an ok flag plus the
error class the status itself carries (0 when ok). -/
structure Status where
  ok : Bool
  code : Int
deriving DecidableEq

/-- Outcome of one expansion of the `HANDLE_SIGPIPE` macro: fall through
with no message, log a warning and fall through, or `return _s` to the
enclosing function. -/
inductive SigpipeAction where
  | proceed
  | warnAndProceed
  | returnStatus (s : Status)
deriving DecidableEq

/-- Embedding of the `HANDLE_SIGPIPE(s, fd_)` macro from `plasma.h`:
evaluate the status; if it is not ok, inspect the GLOBAL `errno` at that
moment; when `errno` is `EPIPE`, `EBADF` or `ECONNRESET` log a warning and
continue, otherwise return the status to the caller.  The `fd_` argument is
used only in the warning text and is omitted. -/
def HANDLE_SIGPIPE (s : Status) (currentErrno : Int) : SigpipeAction :=
  if s.ok then SigpipeAction.proceed
  else if currentErrno = EPIPE ∨ currentErrno = EBADF ∨ currentErrno = ECONNRESET then
    SigpipeAction.warnAndProceed
  else SigpipeAction.returnStatus s

/-- Modelled from the spec: a send to a client descriptor that fails with
error class `c` sets the global `errno` to `c` and produces a non-ok status
carrying that class; the transport boundary then runs `HANDLE_SIGPIPE` on
the result. -/
def handleFailedSend (c : Int) : SigpipeAction :=
  HANDLE_SIGPIPE { ok := false, code := c } c

/-- Allocation granularity used in plasma for object allocation
(`constexpr int64_t kBlockSize = 64` in `plasma.h`). -/
def kBlockSize : Nat := 64

/-- Modelled from the spec: the allocator rounds every requested size up to
a multiple of the fixed 64-byte allocation granularity (the rounding code
itself is not in the header). -/
def roundUpToBlock (n : Nat) : Nat :=
  ((n + kBlockSize - 1) / kBlockSize) * kBlockSize

/-- `ObjectState` from `plasma.h`: created but not sealed, or sealed. -/
inductive ObjectState where
  | PLASMA_CREATED
  | PLASMA_SEALED
deriving DecidableEq

/-- `ObjectStatus` from `plasma.h`: result of looking an object up. -/
inductive ObjectStatus where
  | OBJECT_NOT_FOUND
  | OBJECT_FOUND
deriving DecidableEq

/-- Object identifiers are opaque fixed-width keys; modelled as `Nat`. -/
abbrev ObjectID := Nat

/-- `PlasmaObject` from `plasma.h`: the location record handed to clients
(store fd, data/metadata offsets and sizes, device number). -/
structure PlasmaObject where
  store_fd : Nat
  data_offset : Nat
  metadata_offset : Nat
  data_size : Nat
  metadata_size : Nat
  device_num : Nat
deriving DecidableEq

/-- `ObjectTableEntry` from `plasma.h`: per-object record.  `data_size`,
`metadata_size` and `creator` embed the `flatbuf::ObjectInfoT info` field
(size split and owning client); `ref_count` is the number of clients
currently using the object; `digest` is meaningful only once sealed. -/
structure ObjectTableEntry where
  object_id : ObjectID
  data_size : Nat
  metadata_size : Nat
  creator : Nat
  fd : Nat
  device_num : Nat
  map_size : Nat
  offset : Nat
  ref_count : Int
  state : ObjectState
  digest : List Nat
deriving DecidableEq

/-- `PlasmaStoreInfo` from `plasma.h`: the object table (modelled as an
association list keyed by `object_id`), the capacity bound and the
allocator pass-through configuration. -/
structure PlasmaStoreInfo where
  objects : List ObjectTableEntry
  memory_capacity : Nat
  hugepages_enabled : Bool
  directory : String
deriving DecidableEq

/-- Modelled from the spec: the store state seen by the serialized request
stream — the directory (`PlasmaStoreInfo`) plus the external per-session
table of holds, one `(client, object_id)` pair per outstanding `Get`. -/
structure StoreState where
  info : PlasmaStoreInfo
  holds : List (Nat × Nat)
deriving DecidableEq

/-- `GetObjectTableEntry` from `plasma.h`: look the id up in the object
table, returning the entry or `none` (NULL) when absent.  It reads the
table only: the directory is unchanged and no reference count moves. -/
def GetObjectTableEntry (store_info : PlasmaStoreInfo) (object_id : ObjectID) :
    Option ObjectTableEntry :=
  store_info.objects.find? (fun e => e.object_id == object_id)

/-- Replace the object table of a store state, keeping everything else. -/
def withObjects (s : StoreState) (os : List ObjectTableEntry) : StoreState :=
  { s with info := { s.info with objects := os } }

/-- Eligibility for reclamation: sealed and unreferenced. -/
def isEligible (e : ObjectTableEntry) : Bool :=
  e.state == ObjectState.PLASMA_SEALED && e.ref_count == 0

/-- Bytes the directory accounts for one entry: data plus metadata size,
rounded up to the allocation granularity. -/
def entryFootprint (e : ObjectTableEntry) : Nat :=
  roundUpToBlock (e.data_size + e.metadata_size)

/-- Total accounted bytes over all live entries. -/
def usedBytes (s : StoreState) : Nat :=
  (s.info.objects.map entryFootprint).sum

/-- Location metadata handed to clients for an entry, identical for
`Create` and `Get`: data at `offset`, metadata right after the data. -/
def entryToPlasmaObject (e : ObjectTableEntry) : PlasmaObject :=
  { store_fd := e.fd
    data_offset := e.offset
    metadata_offset := e.offset + e.data_size
    data_size := e.data_size
    metadata_size := e.metadata_size
    device_num := e.device_num }

/-- Typed result of a directory operation. -/
inductive DirResult where
  | ok
  | okObject (obj : PlasmaObject)
  | errObjectExists
  | errObjectNotFound
  | errInvalidState
  | errOutOfMemory
  | errRefCountUnderflow
deriving DecidableEq

/-- Result of `Get`: a soft not-found (not an error) or the location. -/
inductive GetResult where
  | notFound
  | found (obj : PlasmaObject)
deriving DecidableEq

/-- Map a `Get` result onto the header's `ObjectStatus` enum. -/
def GetResult.toObjectStatus : GetResult → ObjectStatus
  | GetResult.notFound => ObjectStatus.OBJECT_NOT_FOUND
  | GetResult.found _ => ObjectStatus.OBJECT_FOUND

/-- Modelled from the spec: eviction of the victims selected by the
eviction policy.  Defensive invariant check: an entry is removed only when
it is among the victims AND eligible (sealed, unreferenced); an ineligible
victim is ignored. -/
def evictVictims (s : StoreState) (victims : List ObjectID) : StoreState :=
  withObjects s (s.info.objects.filter
    (fun e => !(victims.contains e.object_id && isEligible e)))

/-- Modelled from the spec: the CREATED entry `Create` inserts — the
creator's single hold, a fresh backing segment keyed by the id (the
allocator is modelled as giving each object its own segment), and the
size rounded to the allocation granularity. -/
def freshEntry (client : Nat) (id : ObjectID)
    (dataSize metadataSize deviceNum : Nat) : ObjectTableEntry :=
  { object_id := id
    data_size := dataSize
    metadata_size := metadataSize
    creator := client
    fd := id
    device_num := deviceNum
    map_size := roundUpToBlock (dataSize + metadataSize)
    offset := 0
    ref_count := 1
    state := ObjectState.PLASMA_CREATED
    digest := [] }

/-- Modelled from the spec: `Create(object_id, data_size, metadata_size,
device_num)`.  Fails with `ObjectExists` when the id is present; otherwise
rounds the size, and if it does not fit reclaims the policy-selected
victims (eligible ones only) and retries; fails with `OutOfMemory` when
still insufficient.  On success inserts the `freshEntry` record in state
CREATED and returns the location record. -/
def createOp (s : StoreState) (client : Nat) (id : ObjectID)
    (dataSize metadataSize deviceNum : Nat) (victims : List ObjectID) :
    StoreState × DirResult :=
  match GetObjectTableEntry s.info id with
  | some _ => (s, DirResult.errObjectExists)
  | none =>
    let need := roundUpToBlock (dataSize + metadataSize)
    let fresh := freshEntry client id dataSize metadataSize deviceNum
    if usedBytes s + need ≤ s.info.memory_capacity then
      (withObjects s (fresh :: s.info.objects), DirResult.okObject (entryToPlasmaObject fresh))
    else
      let s1 := evictVictims s victims
      if usedBytes s1 + need ≤ s1.info.memory_capacity then
        (withObjects s1 (fresh :: s1.info.objects),
          DirResult.okObject (entryToPlasmaObject fresh))
      else (s1, DirResult.errOutOfMemory)

/-- Apply `f` to the entry keyed `id`, leaving the other entries alone. -/
def updateEntry (s : StoreState) (id : ObjectID)
    (f : ObjectTableEntry → ObjectTableEntry) : StoreState :=
  withObjects s (s.info.objects.map (fun e => if e.object_id == id then f e else e))

/-- Modelled from the spec: `Seal(object_id, digest)`.  Fails with
`ObjectNotFound` when absent, `InvalidState` unless CREATED; transitions to
SEALED and stores the digest. -/
def sealOp (s : StoreState) (id : ObjectID) (dg : List Nat) :
    StoreState × DirResult :=
  match GetObjectTableEntry s.info id with
  | none => (s, DirResult.errObjectNotFound)
  | some e =>
    match e.state with
    | ObjectState.PLASMA_SEALED => (s, DirResult.errInvalidState)
    | ObjectState.PLASMA_CREATED =>
      (updateEntry s id
        (fun e2 => { e2 with state := ObjectState.PLASMA_SEALED, digest := dg }),
        DirResult.ok)

/-- Modelled from the spec: `Get(object_id)` by `client`.  Reports a soft
`OBJECT_NOT_FOUND` immediately when absent or not yet SEALED; on success
increments `ref_count`, records the hold for the session, and returns the
same location metadata as `Create`. -/
def getOp (s : StoreState) (client : Nat) (id : ObjectID) :
    StoreState × GetResult :=
  match GetObjectTableEntry s.info id with
  | none => (s, GetResult.notFound)
  | some e =>
    match e.state with
    | ObjectState.PLASMA_CREATED => (s, GetResult.notFound)
    | ObjectState.PLASMA_SEALED =>
      let s1 := updateEntry s id (fun e2 => { e2 with ref_count := e2.ref_count + 1 })
      ({ s1 with holds := (client, id) :: s1.holds },
        GetResult.found (entryToPlasmaObject e))

/-- Modelled from the spec: `Release(object_id)` by `client`.  Fails with
`ObjectNotFound` when absent; fails with `RefCountUnderflow` — loudly, with
no decrement — when `ref_count` is already 0; otherwise decrements by one
and drops one recorded hold.  It never reclaims memory itself. -/
def releaseOp (s : StoreState) (client : Nat) (id : ObjectID) :
    StoreState × DirResult :=
  match GetObjectTableEntry s.info id with
  | none => (s, DirResult.errObjectNotFound)
  | some e =>
    if e.ref_count == 0 then (s, DirResult.errRefCountUnderflow)
    else
      let s1 := updateEntry s id (fun e2 => { e2 with ref_count := e2.ref_count - 1 })
      ({ s1 with holds := s1.holds.erase (client, id) }, DirResult.ok)

/-- Modelled from the spec: `Abort(object_id)` by `client`.  Fails unless
the entry exists, is still CREATED and `client` is its creator; then
removes it unconditionally. -/
def abortOp (s : StoreState) (client : Nat) (id : ObjectID) :
    StoreState × DirResult :=
  match GetObjectTableEntry s.info id with
  | none => (s, DirResult.errObjectNotFound)
  | some e =>
    match e.state with
    | ObjectState.PLASMA_SEALED => (s, DirResult.errInvalidState)
    | ObjectState.PLASMA_CREATED =>
      if e.creator == client then
        (withObjects s (s.info.objects.filter (fun e2 => !(e2.object_id == id))),
          DirResult.ok)
      else (s, DirResult.errInvalidState)

/-- Modelled from the spec: `Delete(object_id)`.  Fails with `InvalidState`
unless SEALED with `ref_count == 0`; otherwise reclaims the entry. -/
def deleteOp (s : StoreState) (id : ObjectID) : StoreState × DirResult :=
  match GetObjectTableEntry s.info id with
  | none => (s, DirResult.errObjectNotFound)
  | some e =>
    if isEligible e then
      (withObjects s (s.info.objects.filter (fun e2 => !(e2.object_id == id))),
        DirResult.ok)
    else (s, DirResult.errInvalidState)

/-- The object ids `client` currently holds, with multiplicity. -/
def clientHolds (s : StoreState) (client : Nat) : List ObjectID :=
  (s.holds.filter (fun p => p.1 == client)).map Prod.snd

/-- Release the holds recorded in `hs` against one entry: the count drops
by the number of holds on it, clamped so a release of a zero count does
not decrement (as `Release` itself refuses to). -/
def dropHolds (hs : List ObjectID) (e : ObjectTableEntry) : ObjectTableEntry :=
  { e with ref_count := e.ref_count - min e.ref_count (hs.count e.object_id : Int) }

/-- Modelled from the spec: `ReleaseAllFor(client)`, the disconnect
cleanup.  Every hold of the client releases its object once — as if the
client had called `Release` on each, so a decrement never drives a count
below zero — and the client's session entries are dropped. -/
def releaseAllForOp (s : StoreState) (client : Nat) : StoreState :=
  { info := { s.info with
      objects := s.info.objects.map (dropHolds (clientHolds s client)) }
    holds := s.holds.filter (fun p => !(p.1 == client)) }

/-- One request of the serialized stream of directory operations. -/
inductive Op where
  | create (client id dataSize metadataSize deviceNum : Nat) (victims : List ObjectID)
  | seal (id : ObjectID) (dg : List Nat)
  | get (client id : Nat)
  | release (client id : Nat)
  | abort (client id : Nat)
  | delete (id : ObjectID)
  | disconnect (client : Nat)
deriving DecidableEq

/-- State transition of the store under one operation. -/
def applyOp (s : StoreState) : Op → StoreState
  | Op.create c id d m dev vs => (createOp s c id d m dev vs).1
  | Op.seal id dg => (sealOp s id dg).1
  | Op.get c id => (getOp s c id).1
  | Op.release c id => (releaseOp s c id).1
  | Op.abort c id => (abortOp s c id).1
  | Op.delete id => (deleteOp s id).1
  | Op.disconnect c => releaseAllForOp s c

/-- Well-formedness: the object table is a map (keys are unique). -/
abbrev keysNodup (si : PlasmaStoreInfo) : Prop :=
  (si.objects.map ObjectTableEntry.object_id).Nodup

/-- Well-formedness: no reference count is negative. -/
abbrev refCountsNonneg (s : StoreState) : Prop :=
  ∀ e ∈ s.info.objects, 0 ≤ e.ref_count

/-! Helper lemmas about the object-table lookup. -/

@[simp] lemma withObjects_objects (s : StoreState) (os : List ObjectTableEntry) :
    (withObjects s os).info.objects = os := rfl

@[simp] lemma withObjects_capacity (s : StoreState) (os : List ObjectTableEntry) :
    (withObjects s os).info.memory_capacity = s.info.memory_capacity := rfl

lemma getEntry_none_iff (si : PlasmaStoreInfo) (id : ObjectID) :
    GetObjectTableEntry si id = none ↔ ∀ e ∈ si.objects, e.object_id ≠ id := by
  simp [GetObjectTableEntry, List.find?_eq_none]

lemma getEntry_mem {si : PlasmaStoreInfo} {id : ObjectID} {e : ObjectTableEntry}
    (h : GetObjectTableEntry si id = some e) : e ∈ si.objects :=
  List.mem_of_find?_eq_some h

lemma getEntry_key {si : PlasmaStoreInfo} {id : ObjectID} {e : ObjectTableEntry}
    (h : GetObjectTableEntry si id = some e) : e.object_id = id := by
  have := List.find?_some h
  simpa using this

lemma eq_of_same_key {si : PlasmaStoreInfo} (hk : keysNodup si)
    {e1 e2 : ObjectTableEntry} (h1 : e1 ∈ si.objects) (h2 : e2 ∈ si.objects)
    (hid : e1.object_id = e2.object_id) : e1 = e2 :=
  List.inj_on_of_nodup_map hk h1 h2 hid

lemma find?_ne_none_of_mem (l : List ObjectTableEntry) {e : ObjectTableEntry}
    (he : e ∈ l) : l.find? (fun x => x.object_id == e.object_id) ≠ none := by
  intro h
  exact absurd (List.find?_eq_none.mp h e he) (by simp)

lemma find?_map_ne_none (l : List ObjectTableEntry) (g : ObjectTableEntry → ObjectTableEntry)
    (hg : ∀ x, (g x).object_id = x.object_id) {e : ObjectTableEntry} (he : e ∈ l) :
    (l.map g).find? (fun x => x.object_id == e.object_id) ≠ none := by
  intro h
  exact absurd (List.find?_eq_none.mp h (g e) (List.mem_map_of_mem g he)) (by simp [hg])

lemma find?_map_of_nodup (l : List ObjectTableEntry) (g : ObjectTableEntry → ObjectTableEntry)
    (hg : ∀ x, (g x).object_id = x.object_id)
    (hk : (l.map ObjectTableEntry.object_id).Nodup)
    {e : ObjectTableEntry} (he : e ∈ l) :
    (l.map g).find? (fun x => x.object_id == e.object_id) = some (g e) := by
  induction l with
  | nil => cases he
  | cons y l ih =>
    rw [List.map_cons] at hk ⊢
    obtain ⟨hy, hkt⟩ := List.nodup_cons.mp hk
    by_cases hid : y.object_id = e.object_id
    · have hey : e = y := by
        rcases List.mem_cons.mp he with h | h
        · exact h
        · have hmem : e.object_id ∈ l.map ObjectTableEntry.object_id :=
            List.mem_map_of_mem ObjectTableEntry.object_id h
          rw [← hid] at hmem
          exact absurd hmem hy
      subst hey
      exact List.find?_cons_of_pos _ (by simp [hg])
    · have hel : e ∈ l := by
        rcases List.mem_cons.mp he with h | h
        · exact absurd (congrArg ObjectTableEntry.object_id h.symm) hid
        · exact h
      rw [List.find?_cons_of_neg _ (by simp [hg, hid]), ih hkt hel]

lemma updateEntry_objects (s : StoreState) (id : ObjectID)
    (f : ObjectTableEntry → ObjectTableEntry) :
    (updateEntry s id f).info.objects =
      s.info.objects.map (fun e => if e.object_id == id then f e else e) := rfl

@[simp] lemma evictVictims_capacity (s : StoreState) (vs : List ObjectID) :
    (evictVictims s vs).info.memory_capacity = s.info.memory_capacity := rfl

lemma evictVictims_objects (s : StoreState) (vs : List ObjectID) :
    (evictVictims s vs).info.objects =
      s.info.objects.filter (fun e => !(vs.contains e.object_id && isEligible e)) := rfl

/-! Branch equations for the operations. -/

lemma createOp_exists (s : StoreState) (c : Nat) (id : ObjectID) (d m dev : Nat)
    (vs : List ObjectID) {e : ObjectTableEntry}
    (h : GetObjectTableEntry s.info id = some e) :
    createOp s c id d m dev vs = (s, DirResult.errObjectExists) := by
  simp [createOp, h]

lemma createOp_fits (s : StoreState) (c : Nat) (id : ObjectID) (d m dev : Nat)
    (vs : List ObjectID) (h : GetObjectTableEntry s.info id = none)
    (hfit : usedBytes s + roundUpToBlock (d + m) ≤ s.info.memory_capacity) :
    createOp s c id d m dev vs =
      (withObjects s (freshEntry c id d m dev :: s.info.objects),
        DirResult.okObject (entryToPlasmaObject (freshEntry c id d m dev))) := by
  simp [createOp, h, hfit]

lemma createOp_evict_fits (s : StoreState) (c : Nat) (id : ObjectID) (d m dev : Nat)
    (vs : List ObjectID) (h : GetObjectTableEntry s.info id = none)
    (hnofit : ¬ usedBytes s + roundUpToBlock (d + m) ≤ s.info.memory_capacity)
    (hfit : usedBytes (evictVictims s vs) + roundUpToBlock (d + m) ≤ s.info.memory_capacity) :
    createOp s c id d m dev vs =
      (withObjects (evictVictims s vs)
          (freshEntry c id d m dev :: (evictVictims s vs).info.objects),
        DirResult.okObject (entryToPlasmaObject (freshEntry c id d m dev))) := by
  simp [createOp, h, hnofit, hfit]

lemma createOp_oom (s : StoreState) (c : Nat) (id : ObjectID) (d m dev : Nat)
    (vs : List ObjectID) (h : GetObjectTableEntry s.info id = none)
    (hnofit : ¬ usedBytes s + roundUpToBlock (d + m) ≤ s.info.memory_capacity)
    (hnofit2 : ¬ usedBytes (evictVictims s vs) + roundUpToBlock (d + m) ≤ s.info.memory_capacity) :
    createOp s c id d m dev vs = (evictVictims s vs, DirResult.errOutOfMemory) := by
  simp [createOp, h, hnofit, hnofit2]

lemma sealOp_absent (s : StoreState) (id : ObjectID) (dg : List Nat)
    (h : GetObjectTableEntry s.info id = none) :
    sealOp s id dg = (s, DirResult.errObjectNotFound) := by
  simp [sealOp, h]

lemma sealOp_already_sealed (s : StoreState) (id : ObjectID) (dg : List Nat)
    {e : ObjectTableEntry} (h : GetObjectTableEntry s.info id = some e)
    (hst : e.state = ObjectState.PLASMA_SEALED) :
    sealOp s id dg = (s, DirResult.errInvalidState) := by
  simp [sealOp, h, hst]

lemma sealOp_created (s : StoreState) (id : ObjectID) (dg : List Nat)
    {e : ObjectTableEntry} (h : GetObjectTableEntry s.info id = some e)
    (hst : e.state = ObjectState.PLASMA_CREATED) :
    sealOp s id dg =
      (updateEntry s id
          (fun e2 => { e2 with state := ObjectState.PLASMA_SEALED, digest := dg }),
        DirResult.ok) := by
  simp [sealOp, h, hst]

lemma getOp_absent (s : StoreState) (c : Nat) (id : ObjectID)
    (h : GetObjectTableEntry s.info id = none) :
    getOp s c id = (s, GetResult.notFound) := by
  simp [getOp, h]

lemma getOp_created (s : StoreState) (c : Nat) (id : ObjectID)
    {e : ObjectTableEntry} (h : GetObjectTableEntry s.info id = some e)
    (hst : e.state = ObjectState.PLASMA_CREATED) :
    getOp s c id = (s, GetResult.notFound) := by
  simp [getOp, h, hst]

lemma getOp_sealed (s : StoreState) (c : Nat) (id : ObjectID)
    {e : ObjectTableEntry} (h : GetObjectTableEntry s.info id = some e)
    (hst : e.state = ObjectState.PLASMA_SEALED) :
    getOp s c id =
      ({ updateEntry s id (fun e2 => { e2 with ref_count := e2.ref_count + 1 }) with
          holds := (c, id) :: s.holds },
        GetResult.found (entryToPlasmaObject e)) := by
  simp [getOp, h, hst, updateEntry, withObjects]

lemma releaseOp_absent (s : StoreState) (c : Nat) (id : ObjectID)
    (h : GetObjectTableEntry s.info id = none) :
    releaseOp s c id = (s, DirResult.errObjectNotFound) := by
  simp [releaseOp, h]

lemma releaseOp_underflow (s : StoreState) (c : Nat) (id : ObjectID)
    {e : ObjectTableEntry} (h : GetObjectTableEntry s.info id = some e)
    (hz : e.ref_count = 0) :
    releaseOp s c id = (s, DirResult.errRefCountUnderflow) := by
  simp [releaseOp, h, hz]

lemma releaseOp_dec (s : StoreState) (c : Nat) (id : ObjectID)
    {e : ObjectTableEntry} (h : GetObjectTableEntry s.info id = some e)
    (hz : e.ref_count ≠ 0) :
    releaseOp s c id =
      ({ updateEntry s id (fun e2 => { e2 with ref_count := e2.ref_count - 1 }) with
          holds := s.holds.erase (c, id) },
        DirResult.ok) := by
  simp [releaseOp, h, hz, updateEntry, withObjects]

lemma abortOp_absent (s : StoreState) (c : Nat) (id : ObjectID)
    (h : GetObjectTableEntry s.info id = none) :
    abortOp s c id = (s, DirResult.errObjectNotFound) := by
  simp [abortOp, h]

lemma abortOp_sealed (s : StoreState) (c : Nat) (id : ObjectID)
    {e : ObjectTableEntry} (h : GetObjectTableEntry s.info id = some e)
    (hst : e.state = ObjectState.PLASMA_SEALED) :
    abortOp s c id = (s, DirResult.errInvalidState) := by
  simp [abortOp, h, hst]

lemma abortOp_not_creator (s : StoreState) (c : Nat) (id : ObjectID)
    {e : ObjectTableEntry} (h : GetObjectTableEntry s.info id = some e)
    (hst : e.state = ObjectState.PLASMA_CREATED) (hc : e.creator ≠ c) :
    abortOp s c id = (s, DirResult.errInvalidState) := by
  simp [abortOp, h, hst, hc]

lemma abortOp_success (s : StoreState) (c : Nat) (id : ObjectID)
    {e : ObjectTableEntry} (h : GetObjectTableEntry s.info id = some e)
    (hst : e.state = ObjectState.PLASMA_CREATED) (hc : e.creator = c) :
    abortOp s c id =
      (withObjects s (s.info.objects.filter (fun e2 => !(e2.object_id == id))),
        DirResult.ok) := by
  simp [abortOp, h, hst, hc]

lemma deleteOp_absent (s : StoreState) (id : ObjectID)
    (h : GetObjectTableEntry s.info id = none) :
    deleteOp s id = (s, DirResult.errObjectNotFound) := by
  simp [deleteOp, h]

lemma deleteOp_eligible (s : StoreState) (id : ObjectID)
    {e : ObjectTableEntry} (h : GetObjectTableEntry s.info id = some e)
    (hel : isEligible e = true) :
    deleteOp s id =
      (withObjects s (s.info.objects.filter (fun e2 => !(e2.object_id == id))),
        DirResult.ok) := by
  simp [deleteOp, h, hel]

lemma deleteOp_ineligible (s : StoreState) (id : ObjectID)
    {e : ObjectTableEntry} (h : GetObjectTableEntry s.info id = some e)
    (hel : isEligible e = false) :
    deleteOp s id = (s, DirResult.errInvalidState) := by
  simp [deleteOp, h, hel]

lemma eq_false_of_not_true {b : Bool} (h : ¬ b = true) : b = false := by
  cases b
  · rfl
  · exact absurd rfl h

lemma releaseAllForOp_objects (s : StoreState) (c : Nat) :
    (releaseAllForOp s c).info.objects =
      s.info.objects.map (dropHolds (clientHolds s c)) := rfl

lemma dropHolds_object_id (hs : List ObjectID) (e : ObjectTableEntry) :
    (dropHolds hs e).object_id = e.object_id := rfl

lemma releaseAllForOp_id_of (c : Nat) (t : StoreState)
    (h1 : t.info.objects.map (dropHolds (clientHolds t c)) = t.info.objects)
    (h2 : t.holds.filter (fun p => !(p.1 == c)) = t.holds) :
    releaseAllForOp t c = t := by
  obtain ⟨⟨os, cap, hp, dir⟩, hl⟩ := t
  unfold releaseAllForOp
  simp only at h1 h2 ⊢
  rw [h1, h2]

/-! Per-operation lemmas about which entries can disappear from the table. -/

lemma seal_preserves_presence (s : StoreState) (id : ObjectID) (dg : List Nat)
    {e : ObjectTableEntry} (he : e ∈ s.info.objects) :
    GetObjectTableEntry (sealOp s id dg).1.info e.object_id ≠ none := by
  cases hfind : GetObjectTableEntry s.info id with
  | none =>
    rw [sealOp_absent s id dg hfind]
    exact find?_ne_none_of_mem _ he
  | some e2 =>
    cases hst : e2.state with
    | PLASMA_SEALED =>
      rw [sealOp_already_sealed s id dg hfind hst]
      exact find?_ne_none_of_mem _ he
    | PLASMA_CREATED =>
      rw [sealOp_created s id dg hfind hst]
      show (s.info.objects.map _).find? _ ≠ none
      apply find?_map_ne_none _ _ _ he
      intro x
      by_cases hx : x.object_id = id <;> simp [hx]

lemma get_preserves_presence (s : StoreState) (c : Nat) (id : ObjectID)
    {e : ObjectTableEntry} (he : e ∈ s.info.objects) :
    GetObjectTableEntry (getOp s c id).1.info e.object_id ≠ none := by
  cases hfind : GetObjectTableEntry s.info id with
  | none =>
    rw [getOp_absent s c id hfind]
    exact find?_ne_none_of_mem _ he
  | some e2 =>
    cases hst : e2.state with
    | PLASMA_CREATED =>
      rw [getOp_created s c id hfind hst]
      exact find?_ne_none_of_mem _ he
    | PLASMA_SEALED =>
      rw [getOp_sealed s c id hfind hst]
      show (s.info.objects.map _).find? _ ≠ none
      apply find?_map_ne_none _ _ _ he
      intro x
      by_cases hx : x.object_id = id <;> simp [hx]

lemma release_preserves_presence (s : StoreState) (c : Nat) (id : ObjectID)
    {e : ObjectTableEntry} (he : e ∈ s.info.objects) :
    GetObjectTableEntry (releaseOp s c id).1.info e.object_id ≠ none := by
  cases hfind : GetObjectTableEntry s.info id with
  | none =>
    rw [releaseOp_absent s c id hfind]
    exact find?_ne_none_of_mem _ he
  | some e2 =>
    by_cases hz : e2.ref_count = 0
    · rw [releaseOp_underflow s c id hfind hz]
      exact find?_ne_none_of_mem _ he
    · rw [releaseOp_dec s c id hfind hz]
      show (s.info.objects.map _).find? _ ≠ none
      apply find?_map_ne_none _ _ _ he
      intro x
      by_cases hx : x.object_id = id <;> simp [hx]

lemma disconnect_preserves_presence (s : StoreState) (c : Nat)
    {e : ObjectTableEntry} (he : e ∈ s.info.objects) :
    GetObjectTableEntry (releaseAllForOp s c).info e.object_id ≠ none := by
  show (s.info.objects.map _).find? _ ≠ none
  apply find?_map_ne_none _ _ _ he
  intro x
  rfl

lemma create_removal_eligible (s : StoreState) (c : Nat) (id : ObjectID)
    (d m dev : Nat) (vs : List ObjectID)
    {e : ObjectTableEntry} (he : e ∈ s.info.objects)
    (hgone : GetObjectTableEntry (createOp s c id d m dev vs).1.info e.object_id = none) :
    e.state = ObjectState.PLASMA_SEALED ∧ e.ref_count = 0 := by
  by_cases hq : (vs.contains e.object_id && isEligible e) = true
  · have hboth : vs.contains e.object_id = true ∧ isEligible e = true := by
      simpa using hq
    have h2 := hboth.2
    simp only [isEligible, Bool.and_eq_true, beq_iff_eq] at h2
    exact h2
  · exfalso
    have hq' : (vs.contains e.object_id && isEligible e) = false := eq_false_of_not_true hq
    have hin : e ∈ (evictVictims s vs).info.objects := by
      rw [evictVictims_objects]
      refine List.mem_filter.mpr ⟨he, ?_⟩
      simp only [Bool.not_eq_true', hq']
    cases hfind : GetObjectTableEntry s.info id with
    | some e2 =>
      rw [createOp_exists s c id d m dev vs hfind] at hgone
      exact find?_ne_none_of_mem _ he hgone
    | none =>
      by_cases hfit : usedBytes s + roundUpToBlock (d + m) ≤ s.info.memory_capacity
      · rw [createOp_fits s c id d m dev vs hfind hfit] at hgone
        exact absurd (List.find?_eq_none.mp hgone e (List.mem_cons_of_mem _ he)) (by simp)
      · by_cases hfit2 : usedBytes (evictVictims s vs) + roundUpToBlock (d + m) ≤
            s.info.memory_capacity
        · rw [createOp_evict_fits s c id d m dev vs hfind hfit hfit2] at hgone
          exact absurd (List.find?_eq_none.mp hgone e (List.mem_cons_of_mem _ hin)) (by simp)
        · rw [createOp_oom s c id d m dev vs hfind hfit hfit2] at hgone
          exact find?_ne_none_of_mem _ hin hgone

lemma abort_removal (s : StoreState) (c : Nat) (id : ObjectID)
    (hk : keysNodup s.info) {e : ObjectTableEntry} (he : e ∈ s.info.objects)
    (hgone : GetObjectTableEntry (abortOp s c id).1.info e.object_id = none) :
    e.state = ObjectState.PLASMA_CREATED ∧ c = e.creator ∧ id = e.object_id := by
  cases hfind : GetObjectTableEntry s.info id with
  | none =>
    rw [abortOp_absent s c id hfind] at hgone
    exact absurd hgone (find?_ne_none_of_mem _ he)
  | some e2 =>
    cases hst : e2.state with
    | PLASMA_SEALED =>
      rw [abortOp_sealed s c id hfind hst] at hgone
      exact absurd hgone (find?_ne_none_of_mem _ he)
    | PLASMA_CREATED =>
      by_cases hc : e2.creator = c
      · rw [abortOp_success s c id hfind hst hc] at hgone
        by_cases hid : e.object_id = id
        · have he2 : e = e2 := eq_of_same_key hk he (getEntry_mem hfind)
            (by rw [hid, getEntry_key hfind])
          subst he2
          exact ⟨hst, hc.symm, hid.symm⟩
        · have hin : e ∈ s.info.objects.filter (fun x => !(x.object_id == id)) :=
            List.mem_filter.mpr ⟨he, by simp [hid]⟩
          exact absurd (List.find?_eq_none.mp hgone e hin) (by simp)
      · rw [abortOp_not_creator s c id hfind hst hc] at hgone
        exact absurd hgone (find?_ne_none_of_mem _ he)

lemma delete_removal (s : StoreState) (id : ObjectID)
    (hk : keysNodup s.info) {e : ObjectTableEntry} (he : e ∈ s.info.objects)
    (hgone : GetObjectTableEntry (deleteOp s id).1.info e.object_id = none) :
    e.state = ObjectState.PLASMA_SEALED ∧ e.ref_count = 0 := by
  cases hfind : GetObjectTableEntry s.info id with
  | none =>
    rw [deleteOp_absent s id hfind] at hgone
    exact absurd hgone (find?_ne_none_of_mem _ he)
  | some e2 =>
    by_cases hel : isEligible e2
    · rw [deleteOp_eligible s id hfind hel] at hgone
      by_cases hid : e.object_id = id
      · have he2 : e = e2 := eq_of_same_key hk he (getEntry_mem hfind)
          (by rw [hid, getEntry_key hfind])
        subst he2
        simp only [isEligible, Bool.and_eq_true, beq_iff_eq] at hel
        exact hel
      · have hin : e ∈ s.info.objects.filter (fun x => !(x.object_id == id)) :=
          List.mem_filter.mpr ⟨he, by simp [hid]⟩
        exact absurd (List.find?_eq_none.mp hgone e hin) (by simp)
    · rw [deleteOp_ineligible s id hfind (eq_false_of_not_true hel)] at hgone
      exact absurd hgone (find?_ne_none_of_mem _ he)

/-- C1: an entry leaves the directory only when it was eligible (SEALED and
unreferenced) or through an abort of a CREATED entry by its creator; the
eviction path never reclaims an ineligible entry, even one the policy
selected. -/
theorem entry_reclaimed_only_when_eligible (s : StoreState) (op : Op)
    (e : ObjectTableEntry) (hk : keysNodup s.info) (he : e ∈ s.info.objects)
    (hgone : GetObjectTableEntry (applyOp s op).info e.object_id = none) :
    (e.state = ObjectState.PLASMA_SEALED ∧ e.ref_count = 0) ∨
    (e.state = ObjectState.PLASMA_CREATED ∧ op = Op.abort e.creator e.object_id) := by
  rcases op with ⟨c, id, d, m, dev, vs⟩ | ⟨id, dg⟩ | ⟨c, id⟩ | ⟨c, id⟩ | ⟨c, id⟩ | ⟨id⟩ | ⟨c⟩
  · exact Or.inl (create_removal_eligible s c id d m dev vs he hgone)
  · exact absurd hgone (seal_preserves_presence s id dg he)
  · exact absurd hgone (get_preserves_presence s c id he)
  · exact absurd hgone (release_preserves_presence s c id he)
  · obtain ⟨h1, h2, h3⟩ := abort_removal s c id hk he hgone
    subst h2
    subst h3
    exact Or.inr ⟨h1, rfl⟩
  · exact Or.inl (delete_removal s id hk he hgone)
  · exact absurd hgone (disconnect_preserves_presence s c he)

/-! Capacity accounting lemmas. -/

@[simp] lemma usedBytes_set_holds (s : StoreState) (h : List (Nat × Nat)) :
    usedBytes { s with holds := h } = usedBytes s := rfl

lemma sum_map_filter_le (l : List ObjectTableEntry) (q : ObjectTableEntry → Bool) :
    ((l.filter q).map entryFootprint).sum ≤ (l.map entryFootprint).sum := by
  induction l with
  | nil => simp
  | cons y l ih =>
    rw [List.filter_cons]
    by_cases h : q y
    · rw [if_pos h]
      simp only [List.map_cons, List.sum_cons]
      omega
    · rw [if_neg h]
      simp only [List.map_cons, List.sum_cons]
      omega

lemma usedBytes_evict_le (s : StoreState) (vs : List ObjectID) :
    usedBytes (evictVictims s vs) ≤ usedBytes s := by
  simp only [usedBytes, evictVictims_objects]
  exact sum_map_filter_le _ _

lemma usedBytes_updateEntry (s : StoreState) (id : ObjectID)
    (f : ObjectTableEntry → ObjectTableEntry)
    (hf : ∀ x, entryFootprint (f x) = entryFootprint x) :
    usedBytes (updateEntry s id f) = usedBytes s := by
  simp only [usedBytes, updateEntry_objects, List.map_map]
  congr 1
  apply List.map_congr_left
  intro a _
  by_cases h : a.object_id = id <;> simp [Function.comp, h, hf]

lemma usedBytes_releaseAllFor (s : StoreState) (c : Nat) :
    usedBytes (releaseAllForOp s c) = usedBytes s := by
  simp only [usedBytes, releaseAllForOp_objects, List.map_map]
  congr 1

lemma usedBytes_fresh_cons (s : StoreState) (c : Nat) (id : ObjectID) (d m dev : Nat) :
    usedBytes (withObjects s (freshEntry c id d m dev :: s.info.objects)) =
      roundUpToBlock (d + m) + usedBytes s := by
  simp [usedBytes, entryFootprint, freshEntry]

lemma capacity_createOp (s : StoreState) (c : Nat) (id : ObjectID) (d m dev : Nat)
    (vs : List ObjectID) :
    (createOp s c id d m dev vs).1.info.memory_capacity = s.info.memory_capacity := by
  cases hfind : GetObjectTableEntry s.info id with
  | some e => rw [createOp_exists s c id d m dev vs hfind]
  | none =>
    by_cases hfit : usedBytes s + roundUpToBlock (d + m) ≤ s.info.memory_capacity
    · rw [createOp_fits s c id d m dev vs hfind hfit]
      rfl
    · by_cases hfit2 : usedBytes (evictVictims s vs) + roundUpToBlock (d + m) ≤
          s.info.memory_capacity
      · rw [createOp_evict_fits s c id d m dev vs hfind hfit hfit2]
        rfl
      · rw [createOp_oom s c id d m dev vs hfind hfit hfit2]
        rfl

lemma capacity_sealOp (s : StoreState) (id : ObjectID) (dg : List Nat) :
    (sealOp s id dg).1.info.memory_capacity = s.info.memory_capacity := by
  cases hfind : GetObjectTableEntry s.info id with
  | none => rw [sealOp_absent s id dg hfind]
  | some e =>
    cases hst : e.state with
    | PLASMA_SEALED => rw [sealOp_already_sealed s id dg hfind hst]
    | PLASMA_CREATED =>
      rw [sealOp_created s id dg hfind hst]
      rfl

lemma capacity_getOp (s : StoreState) (c : Nat) (id : ObjectID) :
    (getOp s c id).1.info.memory_capacity = s.info.memory_capacity := by
  cases hfind : GetObjectTableEntry s.info id with
  | none => rw [getOp_absent s c id hfind]
  | some e =>
    cases hst : e.state with
    | PLASMA_CREATED => rw [getOp_created s c id hfind hst]
    | PLASMA_SEALED =>
      rw [getOp_sealed s c id hfind hst]
      rfl

lemma capacity_releaseOp (s : StoreState) (c : Nat) (id : ObjectID) :
    (releaseOp s c id).1.info.memory_capacity = s.info.memory_capacity := by
  cases hfind : GetObjectTableEntry s.info id with
  | none => rw [releaseOp_absent s c id hfind]
  | some e =>
    by_cases hz : e.ref_count = 0
    · rw [releaseOp_underflow s c id hfind hz]
    · rw [releaseOp_dec s c id hfind hz]
      rfl

lemma capacity_abortOp (s : StoreState) (c : Nat) (id : ObjectID) :
    (abortOp s c id).1.info.memory_capacity = s.info.memory_capacity := by
  cases hfind : GetObjectTableEntry s.info id with
  | none => rw [abortOp_absent s c id hfind]
  | some e =>
    cases hst : e.state with
    | PLASMA_SEALED => rw [abortOp_sealed s c id hfind hst]
    | PLASMA_CREATED =>
      by_cases hc : e.creator = c
      · rw [abortOp_success s c id hfind hst hc]
        rfl
      · rw [abortOp_not_creator s c id hfind hst hc]

lemma capacity_deleteOp (s : StoreState) (id : ObjectID) :
    (deleteOp s id).1.info.memory_capacity = s.info.memory_capacity := by
  cases hfind : GetObjectTableEntry s.info id with
  | none => rw [deleteOp_absent s id hfind]
  | some e =>
    by_cases hel : isEligible e
    · rw [deleteOp_eligible s id hfind hel]
      rfl
    · rw [deleteOp_ineligible s id hfind (eq_false_of_not_true hel)]

lemma capacity_applyOp (s : StoreState) (op : Op) :
    (applyOp s op).info.memory_capacity = s.info.memory_capacity := by
  rcases op with ⟨c, id, d, m, dev, vs⟩ | ⟨id, dg⟩ | ⟨c, id⟩ | ⟨c, id⟩ | ⟨c, id⟩ | ⟨id⟩ | ⟨c⟩
  · exact capacity_createOp s c id d m dev vs
  · exact capacity_sealOp s id dg
  · exact capacity_getOp s c id
  · exact capacity_releaseOp s c id
  · exact capacity_abortOp s c id
  · exact capacity_deleteOp s id
  · rfl

lemma usedBytes_applyOp_le (s : StoreState) (op : Op)
    (h : usedBytes s ≤ s.info.memory_capacity) :
    usedBytes (applyOp s op) ≤ s.info.memory_capacity := by
  rcases op with ⟨c, id, d, m, dev, vs⟩ | ⟨id, dg⟩ | ⟨c, id⟩ | ⟨c, id⟩ | ⟨c, id⟩ | ⟨id⟩ | ⟨c⟩
  · simp only [applyOp]
    cases hfind : GetObjectTableEntry s.info id with
    | some e =>
      rw [createOp_exists s c id d m dev vs hfind]
      exact h
    | none =>
      by_cases hfit : usedBytes s + roundUpToBlock (d + m) ≤ s.info.memory_capacity
      · rw [createOp_fits s c id d m dev vs hfind hfit, usedBytes_fresh_cons]
        omega
      · by_cases hfit2 : usedBytes (evictVictims s vs) + roundUpToBlock (d + m) ≤
            s.info.memory_capacity
        · rw [createOp_evict_fits s c id d m dev vs hfind hfit hfit2]
          have h1 : usedBytes (withObjects (evictVictims s vs)
              (freshEntry c id d m dev :: (evictVictims s vs).info.objects)) =
              roundUpToBlock (d + m) + usedBytes (evictVictims s vs) :=
            usedBytes_fresh_cons (evictVictims s vs) c id d m dev
          rw [h1]
          omega
        · rw [createOp_oom s c id d m dev vs hfind hfit hfit2]
          exact le_trans (usedBytes_evict_le s vs) h
  · simp only [applyOp]
    cases hfind : GetObjectTableEntry s.info id with
    | none =>
      rw [sealOp_absent s id dg hfind]
      exact h
    | some e =>
      cases hst : e.state with
      | PLASMA_SEALED =>
        rw [sealOp_already_sealed s id dg hfind hst]
        exact h
      | PLASMA_CREATED =>
        rw [sealOp_created s id dg hfind hst]
        show usedBytes (updateEntry s id _) ≤ _
        rw [usedBytes_updateEntry]
        · exact h
        · intro x
          rfl
  · simp only [applyOp]
    cases hfind : GetObjectTableEntry s.info id with
    | none =>
      rw [getOp_absent s c id hfind]
      exact h
    | some e =>
      cases hst : e.state with
      | PLASMA_CREATED =>
        rw [getOp_created s c id hfind hst]
        exact h
      | PLASMA_SEALED =>
        rw [getOp_sealed s c id hfind hst]
        show usedBytes (updateEntry s id _) ≤ _
        rw [usedBytes_updateEntry]
        · exact h
        · intro x
          rfl
  · simp only [applyOp]
    cases hfind : GetObjectTableEntry s.info id with
    | none =>
      rw [releaseOp_absent s c id hfind]
      exact h
    | some e =>
      by_cases hz : e.ref_count = 0
      · rw [releaseOp_underflow s c id hfind hz]
        exact h
      · rw [releaseOp_dec s c id hfind hz]
        show usedBytes (updateEntry s id _) ≤ _
        rw [usedBytes_updateEntry]
        · exact h
        · intro x
          rfl
  · simp only [applyOp]
    cases hfind : GetObjectTableEntry s.info id with
    | none =>
      rw [abortOp_absent s c id hfind]
      exact h
    | some e =>
      cases hst : e.state with
      | PLASMA_SEALED =>
        rw [abortOp_sealed s c id hfind hst]
        exact h
      | PLASMA_CREATED =>
        by_cases hc : e.creator = c
        · rw [abortOp_success s c id hfind hst hc]
          exact le_trans (sum_map_filter_le _ _) h
        · rw [abortOp_not_creator s c id hfind hst hc]
          exact h
  · simp only [applyOp]
    cases hfind : GetObjectTableEntry s.info id with
    | none =>
      rw [deleteOp_absent s id hfind]
      exact h
    | some e =>
      by_cases hel : isEligible e
      · rw [deleteOp_eligible s id hfind hel]
        exact le_trans (sum_map_filter_le _ _) h
      · rw [deleteOp_ineligible s id hfind (eq_false_of_not_true hel)]
        exact h
  · simp only [applyOp]
    rw [usedBytes_releaseAllFor]
    exact h

/-- C3: after every sequence of directory operations starting from a state
within capacity, the sum over all live entries of their data plus metadata
sizes, each rounded up to the allocation granularity, stays within
`memory_capacity`; eviction during a request only frees space, so the bound
holds through eviction as well. -/
theorem capacity_bound_after_ops (s : StoreState) (ops : List Op)
    (h : usedBytes s ≤ s.info.memory_capacity) :
    usedBytes (ops.foldl applyOp s) ≤ (ops.foldl applyOp s).info.memory_capacity := by
  induction ops generalizing s with
  | nil => exact h
  | cons op ops ih =>
    rw [List.foldl_cons]
    apply ih
    rw [capacity_applyOp]
    exact usedBytes_applyOp_le s op h

/-! Preservation of well-formedness (unique keys, non-negative counts). -/

lemma keys_map_preserved (l : List ObjectTableEntry) (g : ObjectTableEntry → ObjectTableEntry)
    (hg : ∀ x, (g x).object_id = x.object_id) :
    (l.map g).map ObjectTableEntry.object_id = l.map ObjectTableEntry.object_id := by
  rw [List.map_map]
  apply List.map_congr_left
  intro a _
  exact hg a

lemma keys_filter_nodup (l : List ObjectTableEntry) (q : ObjectTableEntry → Bool)
    (hk : (l.map ObjectTableEntry.object_id).Nodup) :
    ((l.filter q).map ObjectTableEntry.object_id).Nodup :=
  hk.sublist (List.Sublist.map _ (List.filter_sublist l))

lemma id_not_in_keys (si : PlasmaStoreInfo) (id : ObjectID)
    (h : GetObjectTableEntry si id = none) :
    id ∉ si.objects.map ObjectTableEntry.object_id := by
  intro hmem
  rcases List.mem_map.mp hmem with ⟨e, he, hid⟩
  exact (getEntry_none_iff si id).mp h e he hid

lemma keysNodup_applyOp (s : StoreState) (op : Op) (hk : keysNodup s.info) :
    keysNodup (applyOp s op).info := by
  rcases op with ⟨c, id, d, m, dev, vs⟩ | ⟨id, dg⟩ | ⟨c, id⟩ | ⟨c, id⟩ | ⟨c, id⟩ | ⟨id⟩ | ⟨c⟩
  · simp only [applyOp]
    cases hfind : GetObjectTableEntry s.info id with
    | some e =>
      rw [createOp_exists s c id d m dev vs hfind]
      exact hk
    | none =>
      have hnot := id_not_in_keys s.info id hfind
      by_cases hfit : usedBytes s + roundUpToBlock (d + m) ≤ s.info.memory_capacity
      · rw [createOp_fits s c id d m dev vs hfind hfit]
        show ((freshEntry c id d m dev :: s.info.objects).map ObjectTableEntry.object_id).Nodup
        rw [List.map_cons]
        exact List.nodup_cons.mpr ⟨hnot, hk⟩
      · by_cases hfit2 : usedBytes (evictVictims s vs) + roundUpToBlock (d + m) ≤
            s.info.memory_capacity
        · rw [createOp_evict_fits s c id d m dev vs hfind hfit hfit2]
          show ((freshEntry c id d m dev :: (evictVictims s vs).info.objects).map
              ObjectTableEntry.object_id).Nodup
          rw [List.map_cons, evictVictims_objects]
          refine List.nodup_cons.mpr ⟨?_, keys_filter_nodup _ _ hk⟩
          intro hmem
          exact hnot ((List.Sublist.map ObjectTableEntry.object_id
            (List.filter_sublist _)).subset hmem)
        · rw [createOp_oom s c id d m dev vs hfind hfit hfit2]
          show keysNodup (evictVictims s vs).info
          simp only [keysNodup, evictVictims_objects]
          exact keys_filter_nodup _ _ hk
  · simp only [applyOp]
    cases hfind : GetObjectTableEntry s.info id with
    | none =>
      rw [sealOp_absent s id dg hfind]
      exact hk
    | some e =>
      cases hst : e.state with
      | PLASMA_SEALED =>
        rw [sealOp_already_sealed s id dg hfind hst]
        exact hk
      | PLASMA_CREATED =>
        rw [sealOp_created s id dg hfind hst]
        show ((s.info.objects.map _).map ObjectTableEntry.object_id).Nodup
        rw [keys_map_preserved]
        · exact hk
        · intro x
          by_cases hx : x.object_id = id <;> simp [hx]
  · simp only [applyOp]
    cases hfind : GetObjectTableEntry s.info id with
    | none =>
      rw [getOp_absent s c id hfind]
      exact hk
    | some e =>
      cases hst : e.state with
      | PLASMA_CREATED =>
        rw [getOp_created s c id hfind hst]
        exact hk
      | PLASMA_SEALED =>
        rw [getOp_sealed s c id hfind hst]
        show ((s.info.objects.map _).map ObjectTableEntry.object_id).Nodup
        rw [keys_map_preserved]
        · exact hk
        · intro x
          by_cases hx : x.object_id = id <;> simp [hx]
  · simp only [applyOp]
    cases hfind : GetObjectTableEntry s.info id with
    | none =>
      rw [releaseOp_absent s c id hfind]
      exact hk
    | some e =>
      by_cases hz : e.ref_count = 0
      · rw [releaseOp_underflow s c id hfind hz]
        exact hk
      · rw [releaseOp_dec s c id hfind hz]
        show ((s.info.objects.map _).map ObjectTableEntry.object_id).Nodup
        rw [keys_map_preserved]
        · exact hk
        · intro x
          by_cases hx : x.object_id = id <;> simp [hx]
  · simp only [applyOp]
    cases hfind : GetObjectTableEntry s.info id with
    | none =>
      rw [abortOp_absent s c id hfind]
      exact hk
    | some e =>
      cases hst : e.state with
      | PLASMA_SEALED =>
        rw [abortOp_sealed s c id hfind hst]
        exact hk
      | PLASMA_CREATED =>
        by_cases hc : e.creator = c
        · rw [abortOp_success s c id hfind hst hc]
          exact keys_filter_nodup _ _ hk
        · rw [abortOp_not_creator s c id hfind hst hc]
          exact hk
  · simp only [applyOp]
    cases hfind : GetObjectTableEntry s.info id with
    | none =>
      rw [deleteOp_absent s id hfind]
      exact hk
    | some e =>
      by_cases hel : isEligible e
      · rw [deleteOp_eligible s id hfind hel]
        exact keys_filter_nodup _ _ hk
      · rw [deleteOp_ineligible s id hfind (eq_false_of_not_true hel)]
        exact hk
  · simp only [applyOp]
    show ((s.info.objects.map _).map ObjectTableEntry.object_id).Nodup
    rw [keys_map_preserved]
    · exact hk
    · intro x
      rfl

lemma nonneg_map_update (s : StoreState) (id : ObjectID)
    (f : ObjectTableEntry → ObjectTableEntry) (hnn : refCountsNonneg s)
    (hf : ∀ x ∈ s.info.objects, x.object_id = id → 0 ≤ (f x).ref_count) :
    ∀ x ∈ (updateEntry s id f).info.objects, 0 ≤ x.ref_count := by
  intro x hx
  rw [updateEntry_objects] at hx
  rcases List.mem_map.mp hx with ⟨y, hy, rfl⟩
  by_cases h : y.object_id = id
  · rw [if_pos (by simpa using h)]
    exact hf y hy h
  · rw [if_neg (by simpa using h)]
    exact hnn y hy

lemma refCountsNonneg_applyOp (s : StoreState) (op : Op)
    (hk : keysNodup s.info) (hnn : refCountsNonneg s) :
    refCountsNonneg (applyOp s op) := by
  rcases op with ⟨c, id, d, m, dev, vs⟩ | ⟨id, dg⟩ | ⟨c, id⟩ | ⟨c, id⟩ | ⟨c, id⟩ | ⟨id⟩ | ⟨c⟩
  · simp only [applyOp]
    have hfilter : ∀ x ∈ (evictVictims s vs).info.objects, 0 ≤ x.ref_count := by
      intro x hx
      rw [evictVictims_objects] at hx
      exact hnn x (List.mem_filter.mp hx).1
    cases hfind : GetObjectTableEntry s.info id with
    | some e =>
      rw [createOp_exists s c id d m dev vs hfind]
      exact hnn
    | none =>
      by_cases hfit : usedBytes s + roundUpToBlock (d + m) ≤ s.info.memory_capacity
      · rw [createOp_fits s c id d m dev vs hfind hfit]
        intro x hx
        rw [withObjects_objects] at hx
        rcases List.mem_cons.mp hx with h | h
        · subst h
          exact zero_le_one
        · exact hnn x h
      · by_cases hfit2 : usedBytes (evictVictims s vs) + roundUpToBlock (d + m) ≤
            s.info.memory_capacity
        · rw [createOp_evict_fits s c id d m dev vs hfind hfit hfit2]
          intro x hx
          rw [withObjects_objects] at hx
          rcases List.mem_cons.mp hx with h | h
          · subst h
            exact zero_le_one
          · exact hfilter x h
        · rw [createOp_oom s c id d m dev vs hfind hfit hfit2]
          exact hfilter
  · simp only [applyOp]
    cases hfind : GetObjectTableEntry s.info id with
    | none =>
      rw [sealOp_absent s id dg hfind]
      exact hnn
    | some e =>
      cases hst : e.state with
      | PLASMA_SEALED =>
        rw [sealOp_already_sealed s id dg hfind hst]
        exact hnn
      | PLASMA_CREATED =>
        rw [sealOp_created s id dg hfind hst]
        exact nonneg_map_update s id _ hnn (fun x hx _ => hnn x hx)
  · simp only [applyOp]
    cases hfind : GetObjectTableEntry s.info id with
    | none =>
      rw [getOp_absent s c id hfind]
      exact hnn
    | some e =>
      cases hst : e.state with
      | PLASMA_CREATED =>
        rw [getOp_created s c id hfind hst]
        exact hnn
      | PLASMA_SEALED =>
        rw [getOp_sealed s c id hfind hst]
        refine nonneg_map_update s id _ hnn (fun x hx _ => ?_)
        have h0 := hnn x hx
        show 0 ≤ x.ref_count + 1
        omega
  · simp only [applyOp]
    cases hfind : GetObjectTableEntry s.info id with
    | none =>
      rw [releaseOp_absent s c id hfind]
      exact hnn
    | some e =>
      by_cases hz : e.ref_count = 0
      · rw [releaseOp_underflow s c id hfind hz]
        exact hnn
      · rw [releaseOp_dec s c id hfind hz]
        refine nonneg_map_update s id _ hnn (fun x hx hxid => ?_)
        have hxe : x = e := eq_of_same_key hk hx (getEntry_mem hfind)
          (by rw [hxid, getEntry_key hfind])
        subst hxe
        have h0 := hnn x hx
        show 0 ≤ x.ref_count - 1
        omega
  · simp only [applyOp]
    cases hfind : GetObjectTableEntry s.info id with
    | none =>
      rw [abortOp_absent s c id hfind]
      exact hnn
    | some e =>
      cases hst : e.state with
      | PLASMA_SEALED =>
        rw [abortOp_sealed s c id hfind hst]
        exact hnn
      | PLASMA_CREATED =>
        by_cases hc : e.creator = c
        · rw [abortOp_success s c id hfind hst hc]
          intro x hx
          rw [withObjects_objects] at hx
          exact hnn x (List.mem_filter.mp hx).1
        · rw [abortOp_not_creator s c id hfind hst hc]
          exact hnn
  · simp only [applyOp]
    cases hfind : GetObjectTableEntry s.info id with
    | none =>
      rw [deleteOp_absent s id hfind]
      exact hnn
    | some e =>
      by_cases hel : isEligible e
      · rw [deleteOp_eligible s id hfind hel]
        intro x hx
        rw [withObjects_objects] at hx
        exact hnn x (List.mem_filter.mp hx).1
      · rw [deleteOp_ineligible s id hfind (eq_false_of_not_true hel)]
        exact hnn
  · simp only [applyOp]
    intro x hx
    rw [releaseAllForOp_objects] at hx
    rcases List.mem_map.mp hx with ⟨y, hy, rfl⟩
    show 0 ≤ y.ref_count - min y.ref_count ((clientHolds s c).count y.object_id : Int)
    omega

lemma wf_foldl (s : StoreState) (ops : List Op)
    (hk : keysNodup s.info) (hnn : refCountsNonneg s) :
    keysNodup (ops.foldl applyOp s).info ∧ refCountsNonneg (ops.foldl applyOp s) := by
  induction ops generalizing s with
  | nil => exact ⟨hk, hnn⟩
  | cons op ops ih =>
    rw [List.foldl_cons]
    exact ih _ (keysNodup_applyOp s op hk) (refCountsNonneg_applyOp s op hk hnn)

/-- C2: reference counts stay non-negative under every operation sequence;
`Release` on an entry whose count is already 0 fails with
`RefCountUnderflow` and leaves the store untouched, while `Release` on an
entry with a positive count succeeds and decrements it by exactly one. -/
theorem release_refcount_spec (s : StoreState) (c id : Nat) (e : ObjectTableEntry)
    (hk : keysNodup s.info) (hnn : refCountsNonneg s)
    (hfind : GetObjectTableEntry s.info id = some e) :
    (e.ref_count = 0 → releaseOp s c id = (s, DirResult.errRefCountUnderflow)) ∧
    (0 < e.ref_count →
      (releaseOp s c id).2 = DirResult.ok ∧
      GetObjectTableEntry (releaseOp s c id).1.info id =
        some { e with ref_count := e.ref_count - 1 }) ∧
    (∀ ops : List Op, refCountsNonneg (ops.foldl applyOp s)) := by
  refine ⟨fun hz => releaseOp_underflow s c id hfind hz, fun hpos => ?_,
    fun ops => (wf_foldl s ops hk hnn).2⟩
  have hz : e.ref_count ≠ 0 := by omega
  rw [releaseOp_dec s c id hfind hz]
  refine ⟨rfl, ?_⟩
  have hkey := getEntry_key hfind
  have hmem := getEntry_mem hfind
  have hmap := find?_map_of_nodup s.info.objects
      (fun e2 => if e2.object_id == id then { e2 with ref_count := e2.ref_count - 1 } else e2)
      (fun x => by by_cases hx : x.object_id = id <;> simp [hx])
      hk hmem
  rw [hkey] at hmap
  show (s.info.objects.map
      (fun e2 => if e2.object_id == id then { e2 with ref_count := e2.ref_count - 1 }
        else e2)).find? (fun x => x.object_id == id) =
    some { e with ref_count := e.ref_count - 1 }
  rw [hmap]
  simp [hkey]

/-- C4: `Get` on an absent or not-yet-sealed object returns the soft
`OBJECT_NOT_FOUND` result immediately with the store untouched (it never
blocks and is not an error); `Get` on a SEALED object increments its
`ref_count` by one and hands back the entry's location metadata, the same
record `Create` returned. -/
theorem get_not_found_soft_spec (s : StoreState) (c : Nat) (id : ObjectID)
    (hk : keysNodup s.info) :
    (GetObjectTableEntry s.info id = none →
      getOp s c id = (s, GetResult.notFound) ∧
      (getOp s c id).2.toObjectStatus = ObjectStatus.OBJECT_NOT_FOUND) ∧
    (∀ e, GetObjectTableEntry s.info id = some e →
      e.state = ObjectState.PLASMA_CREATED →
      getOp s c id = (s, GetResult.notFound) ∧
      (getOp s c id).2.toObjectStatus = ObjectStatus.OBJECT_NOT_FOUND) ∧
    (∀ e, GetObjectTableEntry s.info id = some e →
      e.state = ObjectState.PLASMA_SEALED →
      (getOp s c id).2 = GetResult.found (entryToPlasmaObject e) ∧
      GetObjectTableEntry (getOp s c id).1.info id =
        some { e with ref_count := e.ref_count + 1 }) := by
  refine ⟨fun hnone => ?_, fun e hfind hst => ?_, fun e hfind hst => ?_⟩
  · rw [getOp_absent s c id hnone]
    exact ⟨rfl, rfl⟩
  · rw [getOp_created s c id hfind hst]
    exact ⟨rfl, rfl⟩
  · rw [getOp_sealed s c id hfind hst]
    refine ⟨rfl, ?_⟩
    have hkey := getEntry_key hfind
    have hmem := getEntry_mem hfind
    have hmap := find?_map_of_nodup s.info.objects
        (fun e2 => if e2.object_id == id then { e2 with ref_count := e2.ref_count + 1 } else e2)
        (fun x => by by_cases hx : x.object_id = id <;> simp [hx])
        hk hmem
    rw [hkey] at hmap
    show (s.info.objects.map
        (fun e2 => if e2.object_id == id then { e2 with ref_count := e2.ref_count + 1 }
          else e2)).find? (fun x => x.object_id == id) =
      some { e with ref_count := e.ref_count + 1 }
    rw [hmap]
    simp [hkey]

/-- C5: disconnect cleanup (`ReleaseAllFor`) decrements the reference count
of every object the client holds by exactly one, leaves every other entry
untouched, and running it a second time for the same client is a no-op. -/
theorem disconnect_cleanup_spec (s : StoreState) (c : Nat)
    (hk : keysNodup s.info) (hnn : refCountsNonneg s)
    (hdist : (clientHolds s c).Nodup)
    (hheld : ∀ e ∈ s.info.objects, e.object_id ∈ clientHolds s c → 1 ≤ e.ref_count) :
    (∀ e ∈ s.info.objects, e.object_id ∈ clientHolds s c →
      GetObjectTableEntry (releaseAllForOp s c).info e.object_id =
        some { e with ref_count := e.ref_count - 1 }) ∧
    (∀ e ∈ s.info.objects, e.object_id ∉ clientHolds s c →
      GetObjectTableEntry (releaseAllForOp s c).info e.object_id = some e) ∧
    releaseAllForOp (releaseAllForOp s c) c = releaseAllForOp s c := by
  refine ⟨fun e he hmem => ?_, fun e he hmem => ?_, ?_⟩
  · have hmap := find?_map_of_nodup s.info.objects (dropHolds (clientHolds s c))
        (dropHolds_object_id (clientHolds s c)) hk he
    show (s.info.objects.map (dropHolds (clientHolds s c))).find?
        (fun x => x.object_id == e.object_id) =
      some { e with ref_count := e.ref_count - 1 }
    rw [hmap]
    have hcount : (clientHolds s c).count e.object_id = 1 :=
      List.count_eq_one_of_mem hdist hmem
    have hmin : min e.ref_count (1 : Int) = 1 := min_eq_right (hheld e he hmem)
    unfold dropHolds
    rw [hcount, Nat.cast_one, hmin]
  · have hmap := find?_map_of_nodup s.info.objects (dropHolds (clientHolds s c))
        (dropHolds_object_id (clientHolds s c)) hk he
    show (s.info.objects.map (dropHolds (clientHolds s c))).find?
        (fun x => x.object_id == e.object_id) = some e
    rw [hmap]
    have hcount : (clientHolds s c).count e.object_id = 0 :=
      List.count_eq_zero.mpr hmem
    have hmin : min e.ref_count (0 : Int) = 0 := min_eq_right (hnn e he)
    unfold dropHolds
    rw [hcount, Nat.cast_zero, hmin, sub_zero]
  · have hnn2 : refCountsNonneg (releaseAllForOp s c) :=
      refCountsNonneg_applyOp s (Op.disconnect c) hk hnn
    have hch : clientHolds (releaseAllForOp s c) c = [] := by
      unfold clientHolds
      have hnilf : ((releaseAllForOp s c).holds.filter (fun p => p.1 == c)) = [] := by
        rw [List.filter_eq_nil_iff]
        intro a ha
        have ha2 := (List.mem_filter.mp ha).2
        simp only [Bool.not_eq_true'] at ha2
        simp [ha2]
      rw [hnilf]
      rfl
    have hptw : ∀ x ∈ (releaseAllForOp s c).info.objects,
        dropHolds (clientHolds (releaseAllForOp s c) c) x = x := by
      intro x hx
      have hx0 : (0 : Int) ≤ x.ref_count := hnn2 x hx
      unfold dropHolds
      rw [hch]
      have h1 : ((([] : List ObjectID).count x.object_id : Nat) : Int) = 0 := rfl
      rw [h1, min_eq_right hx0, sub_zero]
    have hobjid : (releaseAllForOp s c).info.objects.map
        (dropHolds (clientHolds (releaseAllForOp s c) c)) =
        (releaseAllForOp s c).info.objects := by
      rw [List.map_congr_left hptw]
      exact List.map_id' _
    have hholds : (releaseAllForOp s c).holds.filter (fun p => !(p.1 == c)) =
        (releaseAllForOp s c).holds := by
      rw [List.filter_eq_self]
      intro a ha
      exact (List.mem_filter.mp ha).2
    exact releaseAllForOp_id_of c (releaseAllForOp s c) hobjid hholds

/-! Shape of a successful `Create`. -/

lemma createOp_success_shape (s : StoreState) (c : Nat) (id : ObjectID)
    (d m dev : Nat) (vs : List ObjectID) (s1 : StoreState) (po : PlasmaObject)
    (h1 : createOp s c id d m dev vs = (s1, DirResult.okObject po)) :
    po = entryToPlasmaObject (freshEntry c id d m dev) ∧
    ∃ rest, s1.info.objects = freshEntry c id d m dev :: rest := by
  cases hfind : GetObjectTableEntry s.info id with
  | some e0 =>
    rw [createOp_exists s c id d m dev vs hfind] at h1
    have hbad := congrArg Prod.snd h1
    simp at hbad
  | none =>
    by_cases hfit : usedBytes s + roundUpToBlock (d + m) ≤ s.info.memory_capacity
    · rw [createOp_fits s c id d m dev vs hfind hfit] at h1
      have hs1 := congrArg Prod.fst h1
      have hpo := congrArg Prod.snd h1
      simp only [] at hs1 hpo
      refine ⟨?_, s.info.objects, ?_⟩
      · have : DirResult.okObject (entryToPlasmaObject (freshEntry c id d m dev)) =
            DirResult.okObject po := hpo
        exact (DirResult.okObject.inj this).symm
      · rw [← hs1]
        rfl
    · by_cases hfit2 : usedBytes (evictVictims s vs) + roundUpToBlock (d + m) ≤
          s.info.memory_capacity
      · rw [createOp_evict_fits s c id d m dev vs hfind hfit hfit2] at h1
        have hs1 := congrArg Prod.fst h1
        have hpo := congrArg Prod.snd h1
        simp only [] at hs1 hpo
        refine ⟨?_, (evictVictims s vs).info.objects, ?_⟩
        · have : DirResult.okObject (entryToPlasmaObject (freshEntry c id d m dev)) =
              DirResult.okObject po := hpo
          exact (DirResult.okObject.inj this).symm
        · rw [← hs1]
          rfl
      · rw [createOp_oom s c id d m dev vs hfind hfit hfit2] at h1
        have hbad := congrArg Prod.snd h1
        simp at hbad

lemma roundtrip_core (t : StoreState) (c id d m dev : Nat)
    (rest : List ObjectTableEntry)
    (hobj : t.info.objects = freshEntry c id d m dev :: rest)
    (c2 : Nat) (dg : List Nat) :
    (sealOp t id dg).2 = DirResult.ok ∧
    (getOp (sealOp t id dg).1 c2 id).2 =
      GetResult.found (entryToPlasmaObject (freshEntry c id d m dev)) := by
  have hfind : GetObjectTableEntry t.info id = some (freshEntry c id d m dev) := by
    unfold GetObjectTableEntry
    rw [hobj]
    exact List.find?_cons_of_pos _ (by simp [freshEntry])
  rw [sealOp_created t id dg hfind rfl]
  refine ⟨rfl, ?_⟩
  have hfind2 : GetObjectTableEntry (updateEntry t id
      (fun e2 => { e2 with state := ObjectState.PLASMA_SEALED, digest := dg })).info id =
      some { freshEntry c id d m dev with
        state := ObjectState.PLASMA_SEALED, digest := dg } := by
    unfold GetObjectTableEntry
    rw [updateEntry_objects, hobj, List.map_cons]
    rw [List.find?_cons_of_pos _ (by simp [freshEntry])]
    simp [freshEntry]
  rw [getOp_sealed _ c2 id hfind2 rfl]
  rfl

/-- C7: for valid creation parameters within capacity, `Create` then `Seal`
then `Get` succeeds and the `Get` returns the very location record `Create`
returned — identical `data_size`, `metadata_size`, `device_num`, file
descriptor and offsets, so the reader maps exactly the bytes the creator
wrote. -/
theorem create_seal_get_roundtrip (s : StoreState) (c c2 : Nat) (id : ObjectID)
    (d m dev : Nat) (vs : List ObjectID) (dg : List Nat)
    (s1 : StoreState) (po : PlasmaObject)
    (h1 : createOp s c id d m dev vs = (s1, DirResult.okObject po)) :
    (sealOp s1 id dg).2 = DirResult.ok ∧
    (getOp (sealOp s1 id dg).1 c2 id).2 = GetResult.found po ∧
    po.data_size = d ∧ po.metadata_size = m ∧ po.device_num = dev := by
  obtain ⟨hpo, rest, hobj⟩ := createOp_success_shape s c id d m dev vs s1 po h1
  obtain ⟨hseal, hget⟩ := roundtrip_core s1 c id d m dev rest hobj c2 dg
  subst hpo
  exact ⟨hseal, hget, rfl, rfl, rfl⟩

/-- C8: every size the directory requests from the allocator or accounts
for is the requested byte count rounded up to the fixed 64-byte block
granularity: `roundUpToBlock` yields the least multiple of `kBlockSize`
at or above the request (that is, the ceiling of `n / 64` times 64), and a
successful `Create` records exactly that rounded size for the new entry. -/
theorem allocation_granularity_spec (n : Nat) :
    kBlockSize = 64 ∧
    kBlockSize ∣ roundUpToBlock n ∧
    n ≤ roundUpToBlock n ∧
    (∀ k, n ≤ k → kBlockSize ∣ k → roundUpToBlock n ≤ k) ∧
    (∀ (s : StoreState) (c : Nat) (id : ObjectID) (d m dev : Nat)
        (vs : List ObjectID) (s1 : StoreState) (po : PlasmaObject),
      createOp s c id d m dev vs = (s1, DirResult.okObject po) →
      GetObjectTableEntry s1.info id = some (freshEntry c id d m dev) ∧
      (freshEntry c id d m dev).map_size = roundUpToBlock (d + m) ∧
      entryFootprint (freshEntry c id d m dev) = roundUpToBlock (d + m)) := by
  refine ⟨rfl, ?_, ?_, ?_, ?_⟩
  · exact dvd_mul_left kBlockSize ((n + kBlockSize - 1) / kBlockSize)
  · simp only [roundUpToBlock, kBlockSize]
    omega
  · intro k hk hdvd
    simp only [roundUpToBlock, kBlockSize] at *
    omega
  · intro s c id d m dev vs s1 po h1
    obtain ⟨hpo, rest, hobj⟩ := createOp_success_shape s c id d m dev vs s1 po h1
    refine ⟨?_, rfl, rfl⟩
    unfold GetObjectTableEntry
    rw [hobj]
    exact List.find?_cons_of_pos _ (by simp [freshEntry])

/-- C10: `GetObjectTableEntry` returns NULL exactly when the id is not a
key of the object table; when present it returns the unique entry owned by
that key, exactly as stored — the lookup mutates nothing and in particular
does not touch `ref_count`, unlike the client-facing `Get`. -/
theorem getObjectTableEntry_spec (si : PlasmaStoreInfo) (id : ObjectID)
    (hk : keysNodup si) :
    (GetObjectTableEntry si id = none ↔ ∀ e ∈ si.objects, e.object_id ≠ id) ∧
    (∀ e, GetObjectTableEntry si id = some e →
      e ∈ si.objects ∧ e.object_id = id ∧
      ∀ e2 ∈ si.objects, e2.object_id = id → e2 = e) := by
  refine ⟨getEntry_none_iff si id, fun e hfind => ?_⟩
  refine ⟨getEntry_mem hfind, getEntry_key hfind, fun e2 he2 hid2 => ?_⟩
  exact eq_of_same_key hk he2 (getEntry_mem hfind) (by rw [hid2, getEntry_key hfind])

/-- C6: a send to a client descriptor that fails with a disconnect-class
error (broken pipe `EPIPE`, bad descriptor `EBADF`, or reset connection
`ECONNRESET`) is swallowed at the transport boundary — only a warning is
logged and execution continues, never a fatal store-wide error — while a
send failing with any other error class is returned to the caller as a
failure status. -/
theorem send_failure_swallowed_iff_disconnect (code : Int) :
    ((code = EPIPE ∨ code = EBADF ∨ code = ECONNRESET) →
      handleFailedSend code = SigpipeAction.warnAndProceed) ∧
    (¬(code = EPIPE ∨ code = EBADF ∨ code = ECONNRESET) →
      handleFailedSend code = SigpipeAction.returnStatus { ok := false, code := code }) := by
  constructor
  · intro h
    simp [handleFailedSend, HANDLE_SIGPIPE, h]
  · intro h
    simp [handleFailedSend, HANDLE_SIGPIPE, h]

/-- C9: the `HANDLE_SIGPIPE` macro decides whether to swallow a non-ok
status by inspecting the global `errno` at the moment of the check, not the
error class the status itself carries: whenever `errno` is then `EPIPE`,
`EBADF` or `ECONNRESET` the failure is only logged and execution continues
— even if that `errno` was left over from an earlier unrelated call —
and otherwise the status is returned; two non-ok statuses with different
carried classes are treated identically at the same `errno`. -/
theorem handle_sigpipe_uses_global_errno (st st2 : Status) (e : Int)
    (h : st.ok = false) (h2 : st2.ok = false) :
    ((e = EPIPE ∨ e = EBADF ∨ e = ECONNRESET) →
      HANDLE_SIGPIPE st e = SigpipeAction.warnAndProceed) ∧
    (¬(e = EPIPE ∨ e = EBADF ∨ e = ECONNRESET) →
      HANDLE_SIGPIPE st e = SigpipeAction.returnStatus st) ∧
    (HANDLE_SIGPIPE st e = SigpipeAction.warnAndProceed ↔
      HANDLE_SIGPIPE st2 e = SigpipeAction.warnAndProceed) := by
  refine ⟨fun hc => ?_, fun hc => ?_, ?_⟩
  · simp [HANDLE_SIGPIPE, h, hc]
  · simp [HANDLE_SIGPIPE, h, hc]
  · by_cases hc : e = EPIPE ∨ e = EBADF ∨ e = ECONNRESET
    · simp [HANDLE_SIGPIPE, h, h2, hc]
    · simp [HANDLE_SIGPIPE, h, h2, hc]

/-! Concrete sample store used by the witnesses: one sealed unreferenced
entry (`entA`) and one sealed entry held once by client 3 (`entB`). -/

def entA : ObjectTableEntry :=
  { object_id := 5
    data_size := 100
    metadata_size := 20
    creator := 1
    fd := 5
    device_num := 0
    map_size := 128
    offset := 0
    ref_count := 0
    state := ObjectState.PLASMA_SEALED
    digest := [7] }

def entB : ObjectTableEntry :=
  { object_id := 6
    data_size := 50
    metadata_size := 0
    creator := 2
    fd := 6
    device_num := 0
    map_size := 64
    offset := 0
    ref_count := 1
    state := ObjectState.PLASMA_SEALED
    digest := [9] }

def sampleInfo : PlasmaStoreInfo :=
  { objects := [entA, entB]
    memory_capacity := 1000
    hugepages_enabled := false
    directory := "" }

def sampleState : StoreState :=
  { info := sampleInfo
    holds := [(3, 6)] }

theorem entry_reclaimed_only_when_eligible_witness :
    keysNodup sampleState.info ∧ entA ∈ sampleState.info.objects ∧
    GetObjectTableEntry (applyOp sampleState (Op.delete 5)).info entA.object_id = none ∧
    ((entA.state = ObjectState.PLASMA_SEALED ∧ entA.ref_count = 0) ∨
      (entA.state = ObjectState.PLASMA_CREATED ∧
        Op.delete 5 = Op.abort entA.creator entA.object_id)) :=
  ⟨by decide, by decide, by decide,
    entry_reclaimed_only_when_eligible sampleState (Op.delete 5) entA
      (by decide) (by decide) (by decide)⟩

theorem release_refcount_spec_witness :
    keysNodup sampleState.info ∧ refCountsNonneg sampleState ∧
    GetObjectTableEntry sampleState.info 6 = some entB ∧ 0 < entB.ref_count ∧
    ((releaseOp sampleState 3 6).2 = DirResult.ok ∧
      GetObjectTableEntry (releaseOp sampleState 3 6).1.info 6 =
        some { entB with ref_count := entB.ref_count - 1 }) :=
  ⟨by decide, by decide, by decide, by decide,
    (release_refcount_spec sampleState 3 6 entB (by decide) (by decide) (by decide)).2.1
      (by decide)⟩

theorem capacity_bound_after_ops_witness :
    usedBytes sampleState ≤ sampleState.info.memory_capacity ∧
    usedBytes ([Op.create 1 7 500 0 0 []].foldl applyOp sampleState) ≤
      ([Op.create 1 7 500 0 0 []].foldl applyOp sampleState).info.memory_capacity :=
  ⟨by decide,
    capacity_bound_after_ops sampleState [Op.create 1 7 500 0 0 []] (by decide)⟩

theorem get_not_found_soft_spec_witness :
    keysNodup sampleState.info ∧
    GetObjectTableEntry sampleState.info 5 = some entA ∧
    entA.state = ObjectState.PLASMA_SEALED ∧
    ((getOp sampleState 2 5).2 = GetResult.found (entryToPlasmaObject entA) ∧
      GetObjectTableEntry (getOp sampleState 2 5).1.info 5 =
        some { entA with ref_count := entA.ref_count + 1 }) :=
  ⟨by decide, by decide, by decide,
    (get_not_found_soft_spec sampleState 2 5 (by decide)).2.2 entA (by decide) (by decide)⟩

theorem disconnect_cleanup_spec_witness :
    keysNodup sampleState.info ∧ refCountsNonneg sampleState ∧
    (clientHolds sampleState 3).Nodup ∧
    entB ∈ sampleState.info.objects ∧ entB.object_id ∈ clientHolds sampleState 3 ∧
    GetObjectTableEntry (releaseAllForOp sampleState 3).info entB.object_id =
      some { entB with ref_count := entB.ref_count - 1 } ∧
    releaseAllForOp (releaseAllForOp sampleState 3) 3 = releaseAllForOp sampleState 3 :=
  have h := disconnect_cleanup_spec sampleState 3 (by decide) (by decide)
    (by decide) (by decide)
  ⟨by decide, by decide, by decide, by decide, by decide,
    h.1 entB (by decide) (by decide), h.2.2⟩

theorem send_failure_swallowed_iff_disconnect_witness :
    (EPIPE = EPIPE ∨ EPIPE = EBADF ∨ EPIPE = ECONNRESET) ∧
    handleFailedSend EPIPE = SigpipeAction.warnAndProceed ∧
    ¬((5 : Int) = EPIPE ∨ (5 : Int) = EBADF ∨ (5 : Int) = ECONNRESET) ∧
    handleFailedSend 5 = SigpipeAction.returnStatus { ok := false, code := 5 } :=
  ⟨Or.inl rfl, (send_failure_swallowed_iff_disconnect EPIPE).1 (Or.inl rfl),
    by decide, (send_failure_swallowed_iff_disconnect 5).2 (by decide)⟩

theorem create_seal_get_roundtrip_witness :
    (sealOp (createOp sampleState 1 7 100 20 0 []).1 7 [3]).2 = DirResult.ok ∧
    (getOp (sealOp (createOp sampleState 1 7 100 20 0 []).1 7 [3]).1 2 7).2 =
      GetResult.found (entryToPlasmaObject (freshEntry 1 7 100 20 0)) ∧
    (entryToPlasmaObject (freshEntry 1 7 100 20 0)).data_size = 100 ∧
    (entryToPlasmaObject (freshEntry 1 7 100 20 0)).metadata_size = 20 ∧
    (entryToPlasmaObject (freshEntry 1 7 100 20 0)).device_num = 0 :=
  have h := create_seal_get_roundtrip sampleState 1 2 7 100 20 0 [] [3]
    (createOp sampleState 1 7 100 20 0 []).1
    (entryToPlasmaObject (freshEntry 1 7 100 20 0)) (by decide)
  ⟨h.1, h.2.1, h.2.2.1, h.2.2.2.1, h.2.2.2.2⟩

theorem allocation_granularity_spec_witness :
    kBlockSize = 64 ∧ kBlockSize ∣ roundUpToBlock 100 ∧ 100 ≤ roundUpToBlock 100 ∧
    roundUpToBlock 100 ≤ 128 ∧
    GetObjectTableEntry (createOp sampleState 1 7 100 20 0 []).1.info 7 =
      some (freshEntry 1 7 100 20 0) :=
  have h := allocation_granularity_spec 100
  ⟨h.1, h.2.1, h.2.2.1, h.2.2.2.1 128 (by decide) (by decide),
    (h.2.2.2.2 sampleState 1 7 100 20 0 [] (createOp sampleState 1 7 100 20 0 []).1
      (entryToPlasmaObject (freshEntry 1 7 100 20 0)) (by decide)).1⟩

theorem handle_sigpipe_uses_global_errno_witness :
    ({ ok := false, code := 99 } : Status).ok = false ∧
    HANDLE_SIGPIPE { ok := false, code := 99 } EBADF = SigpipeAction.warnAndProceed ∧
    HANDLE_SIGPIPE { ok := false, code := 99 } 17 =
      SigpipeAction.returnStatus { ok := false, code := 99 } :=
  have h := handle_sigpipe_uses_global_errno { ok := false, code := 99 }
    { ok := false, code := 3 } EBADF rfl rfl
  have h2 := handle_sigpipe_uses_global_errno { ok := false, code := 99 }
    { ok := false, code := 3 } 17 rfl rfl
  ⟨rfl, h.1 (Or.inr (Or.inl rfl)), h2.2.1 (by decide)⟩

theorem getObjectTableEntry_spec_witness :
    keysNodup sampleState.info ∧
    (GetObjectTableEntry sampleState.info 9 = none ↔
      ∀ e ∈ sampleState.info.objects, e.object_id ≠ 9) ∧
    (entA ∈ sampleState.info.objects ∧ entA.object_id = 5 ∧
      ∀ e2 ∈ sampleState.info.objects, e2.object_id = 5 → e2 = entA) :=
  ⟨by decide, (getObjectTableEntry_spec sampleState.info 9 (by decide)).1,
    (getObjectTableEntry_spec sampleState.info 5 (by decide)).2 entA (by decide)⟩

end Plasma
